import Mathlib

/-!
Shallow embedding of the DNSSEC chain-validation core of the `dt` DNS
diagnostic tool (Go sources: `main.go` and the `scan` package file holding
`validateRRSIG`, `validateChain`, `LookupDNSKEY`, `validateParentDS`,
`validateDomain`).

Network exchanges and the cryptographic primitives of the DNS wire library
(`miekg/dns`) are abstracted into an explicit environment `Env`: a query is a
pure function from the question to an optional reply (`none` models a
transport error), and the core of `RRSIG.Verify` is an abstract boolean
predicate.  Everything the Go code itself computes (partitioning a record
set, the key map, the validity-window arithmetic, the loops of the zone
validator and the chain walker, parent-name derivation) is translated
directly.

A `none` result of `validateRRSIG` / `validateDomain` / `validateChain`
models a Go runtime panic (the nil-pointer dereference that happens when
`sig.Verify` is called with no covering RRSIG present).
-/

set_option autoImplicit false

namespace Dt

/-- DNSKEY resource-record payload.  `keyTagVal` models the stable 16-bit
result of the wire-library function `KeyTag()`. -/
structure DNSKEY where
  flags : Nat
  protocol : Nat
  algorithm : Nat
  publicKey : String
  keyTagVal : Nat
deriving DecidableEq, Repr

/-- The wire-library accessor `DNSKEY.KeyTag()`. -/
def DNSKEY.KeyTag (k : DNSKEY) : Nat := k.keyTagVal

/-- RRSIG resource-record payload; `inception` and `expiration` are 32-bit
serial numbers. -/
structure RRSIG where
  typeCovered : Nat
  algorithm : Nat
  keyTag : Nat
  inception : Nat
  expiration : Nat
deriving DecidableEq, Repr

/-- DS resource-record payload. -/
structure DS where
  keyTag : Nat
  digestType : Nat
  digest : String
deriving DecidableEq, Repr

/-- Payload of a resource record, restricted to the record types the core
inspects; `other` carries the numeric rrtype of any further record. -/
inductive RRData where
  | dnskey : DNSKEY → RRData
  | rrsig : RRSIG → RRData
  | ds : DS → RRData
  | ns : String → RRData
  | a : String → RRData
  | aaaa : String → RRData
  | other : Nat → RRData
deriving DecidableEq, Repr

/-- A resource record: owner name plus typed payload. -/
structure RR where
  name : String
  data : RRData
deriving DecidableEq, Repr

/-- Numeric rrtype of a record (`Header().Rrtype` in Go). -/
def RR.rrtype : RR → Nat
  | ⟨_, RRData.dnskey _⟩ => 48
  | ⟨_, RRData.rrsig _⟩ => 46
  | ⟨_, RRData.ds _⟩ => 43
  | ⟨_, RRData.ns _⟩ => 2
  | ⟨_, RRData.a _⟩ => 1
  | ⟨_, RRData.aaaa _⟩ => 28
  | ⟨_, RRData.other t⟩ => t

/-- A DNS message, reduced to its answer section. -/
structure Msg where
  answer : List RR
deriving DecidableEq, Repr

/-- The `structs.Response` wrapper: `msg = none` models `Response.Msg == nil`
after a failed exchange. -/
structure Response where
  msg : Option Msg
deriving DecidableEq, Repr

/-- The `structs.KeyInfo` pair of Unix seconds (Go fields `Start`, `End`). -/
structure KeyInfo where
  Start : Int
  End : Int
deriving DecidableEq, Repr

/-- The `NSInfo` pair of main.go: nameserver name and its IP addresses. -/
structure NSInfo where
  Name : String
  IP : List String
deriving DecidableEq, Repr

/-- Distinct failure values produced by the Go code via `fmt.Errorf`; each
constructor tags one `fmt.Errorf` site, keeping the formatted arguments. -/
inductive Err where
  | transportError
  | noAnswer (qtype : Nat)
  | noNS
  | chainFailed
  | inconsistentKeys
  | noDNSKEY (domain nsip : String)
  | dnskeyValidationFailed (domain : String)
  | noDS (domain nsip : String)
  | noMatchingKeyTag (domain parent : String)
deriving DecidableEq, Repr

/-- The environment abstracting the network and the cryptographic core of
the DNS wire library:
* `query q qtype server sec` is the reply to one wire exchange, `none` on a
  network/timeout error (Go `query` returning a non-nil `err`);
* `verify sig key rrset` is the outcome of the cryptographic part of
  `RRSIG.Verify` once its `IsRRset` pre-check has passed (`true` iff the Go
  call returns a nil error);
* `toDS key digestType` models `DNSKEY.ToDS` (`none` for a nil result);
* `now` is `time.Now().UTC().Unix()`. -/
structure Env where
  query : String → Nat → String → Bool → Option Msg
  verify : RRSIG → DNSKEY → List RR → Bool
  toDS : DNSKEY → Nat → Option DS
  now : Int

/-- Wire-library `IsRRset`: a non-empty list of records agreeing on owner
name and rrtype (the class is constant IN in this model). -/
def IsRRset (rrset : List RR) : Bool :=
  match rrset with
  | [] => false
  | base :: rest => rest.all (fun rr => rr.rrtype == base.rrtype && rr.name == base.name)

/-- One second short of 68 years, `1 << 31`, as in miekg/dns. -/
def year68 : Int := 2147483648

/-- Model of the call `sig.Verify(key, rrset)` where `sig` may be a nil
pointer.  `IsRRset` is checked first and fails without touching `sig`; the
next check of the library reads a field of `sig`, so a nil `sig` with a
well-formed `rrset` is a nil-pointer dereference, modelled as `none`.
`some b` means the call returned, with `b` true iff the error was nil. -/
def sigVerify (env : Env) (sig : Option RRSIG) (key : DNSKEY) (rrset : List RR) : Option Bool :=
  if IsRRset rrset = false then some false
  else
    match sig with
    | none => none
    | some s => some (env.verify s key rrset)

/-- Translation of `explicitValid` (scan package): recovers absolute seconds
from the 32-bit inception/expiration serials.  Go's `/` on int64 truncates
toward zero, which is `Int.tdiv`. -/
def explicitValid (env : Env) (rr : RRSIG) : Int × Int :=
  let utc : Int := env.now
  let modi : Int := Int.tdiv ((rr.inception : Int) - utc) year68
  let mode : Int := Int.tdiv ((rr.expiration : Int) - utc) year68
  let ti : Int := (rr.inception : Int) + modi * year68
  let te : Int := (rr.expiration : Int) + mode * year68
  (ti, te)

/-- Wire-library `RRSIG.ValidityPeriod` evaluated at `env.now`: the same
serial arithmetic as `explicitValid`, then `ti <= utc && utc <= te`. -/
def ValidityPeriod (env : Env) (rr : RRSIG) : Bool :=
  let utc : Int := env.now
  let modi : Int := Int.tdiv ((rr.inception : Int) - utc) year68
  let mode : Int := Int.tdiv ((rr.expiration : Int) - utc) year68
  let ti : Int := (rr.inception : Int) + modi * year68
  let te : Int := (rr.expiration : Int) + mode * year68
  decide (ti ≤ utc) && decide (utc ≤ te)

/-- One step of the partition loop of `validateRRSIG`: an RRSIG becomes
(overwrites) `sig`, any other record is appended to `cleanset`. -/
def splitSigStep (acc : Option RRSIG × List RR) (v : RR) : Option RRSIG × List RR :=
  match v.data with
  | RRData.rrsig s => (some s, acc.2)
  | _ => (acc.1, acc.2 ++ [v])

/-- The partition loop of `validateRRSIG`: the last RRSIG of the set becomes
`sig`, every other record is appended to `cleanset` in order. -/
def splitSig (rrset : List RR) : Option RRSIG × List RR :=
  rrset.foldl splitSigStep (none, [])

/-- The key loop of `validateRRSIG`: non-DNSKEY entries are skipped; for a
DNSKEY, `sig.Verify` is attempted (a possible nil-pointer panic, `none`);
on cryptographic success the validity period decides between returning
`(true, KeyInfo)` and trying the remaining keys. -/
def tryKeys (env : Env) (sig : Option RRSIG) (cleanset : List RR) : List RR → Option (Bool × KeyInfo × Option Err)
  | [] => some (false, ⟨0, 0⟩, none)
  | k :: rest =>
    match k.data with
    | RRData.dnskey key =>
      match sigVerify env sig key cleanset, sig with
      | none, _ => none
      | some true, some s =>
        if ValidityPeriod env s then
          some (true, ⟨(explicitValid env s).1, (explicitValid env s).2⟩, none)
        else tryKeys env sig cleanset rest
      | some true, none => none
      | some false, _ => tryKeys env sig cleanset rest
    | _ => tryKeys env sig cleanset rest

/-- Translation of `validateRRSIG(keys, rrset)`.  `none` models the Go panic
on a nil signature pointer; otherwise the triple is `(bool, KeyInfo, err)`
with the error always nil in the Go code. -/
def validateRRSIG (env : Env) (keys rrset : List RR) : Option (Bool × KeyInfo × Option Err) :=
  if rrset = [] then some (false, ⟨0, 0⟩, none)
  else tryKeys env (splitSig rrset).1 (splitSig rrset).2 keys

/-- Translation of `validateDNSKEY`: the answer section serves as its own
candidate key set. -/
def validateDNSKEY (env : Env) (keys : List RR) : Option (Bool × KeyInfo × Option Err) :=
  validateRRSIG env keys keys

/-- Consecutive backslashes at the head of the (reversed) prefix, used for
the escape check of `dns.NextLabel`. -/
def countLeadingBackslash : List Char → Nat
  | c :: rest => if c = '\\' then countLeadingBackslash rest + 1 else 0
  | [] => 0

/-- Scanning loop of the wire-library `NextLabel` (offset 0): walk the name
looking for an unescaped dot that is not the final character; `prev` is the
reversed prefix already passed, `i` the current index. -/
def nextLabelAux : List Char → List Char → Nat → Nat × Bool
  | _, [], i => (i, true)
  | prev, c :: rest, i =>
    if rest = [] then (i + 1, true)
    else if c = '.' ∧ countLeadingBackslash prev % 2 = 0 then (i + 1, false)
    else nextLabelAux (c :: prev) rest (i + 1)

/-- Wire-library `dns.NextLabel(s, 0)`: index of the start of the next label
and whether the end of the name was reached. -/
def dnsNextLabel (s : List Char) : Nat × Bool := nextLabelAux [] s 0

/-- Translation of `getParentDomain` (main.go) on the character list of the
name: drop up to the next label, or return the root for a single label. -/
def getParentDomainL (s : List Char) : List Char :=
  let r := dnsNextLabel s
  if r.2 = false then s.drop r.1 else ['.']

/-- Translation of `getParentDomain` (main.go). -/
def getParentDomain (s : String) : String :=
  String.mk (getParentDomainL s.data)

/-- The configured recursive resolver of main.go. -/
def resolver : String := "8.8.8.8"

/-- Translation of `query` (main.go): message preparation and the wire
exchange are abstracted into the environment; `none` is a non-nil Go error. -/
def query (env : Env) (q : String) (qtype : Nat) (server : String) (sec : Bool) : Option Msg :=
  env.query q qtype server sec

/-- Translation of `extractRR` (main.go). -/
def extractRR (rrset : List RR) (qtype : Nat) : List RR :=
  rrset.filter (fun rr => rr.rrtype == qtype)

/-- Translation of `queryRRset` (main.go): filter the answer to the asked
type, failing on a transport error or an empty filter result. -/
def queryRRset (env : Env) (q : String) (qtype : Nat) (server : String) (sec : Bool) : Except Err (List RR) :=
  match query env q qtype server sec with
  | none => Except.error Err.transportError
  | some res =>
    let rrset := extractRR res.answer qtype
    if rrset = [] then Except.error (Err.noAnswer qtype) else Except.ok rrset

/-- Translation of `getIP` (main.go): collect the A/AAAA payloads of a
successful `queryRRset`, the empty list on any error. -/
def getIP (env : Env) (host : String) (qtype : Nat) (server : String) : List String :=
  match queryRRset env host qtype server false with
  | Except.error _ => []
  | Except.ok rrset =>
    rrset.foldl
      (fun ips rr =>
        match rr.data with
        | RRData.a ip => ips ++ [ip]
        | RRData.aaaa ip => ips ++ [ip]
        | _ => ips)
      []

/-- One step of the `findNS` loop: an NS record contributes its name with
the A addresses followed by the AAAA addresses.  (On the wire every record
of rrtype 2 parses as `*dns.NS`, so the type assertion of the Go loop is
modelled by matching the `ns` payload.) -/
def nsInfoStep (env : Env) (acc : List NSInfo) (rr : RR) : List NSInfo :=
  match rr.data with
  | RRData.ns ns =>
    acc ++ [⟨ns, getIP env ns 1 resolver ++ getIP env ns 28 resolver⟩]
  | _ => acc

/-- The nameserver list `findNS` assembles from an NS rrset. -/
def nsInfos (env : Env) (rrset : List RR) : List NSInfo :=
  rrset.foldl (nsInfoStep env) []

/-- Translation of `findNS` (main.go).  A failed NS query yields the empty
list with a NIL error (`return []NSInfo{}, nil`); the `noNS` error is
produced only on the success path when no `NSInfo` was assembled. -/
def findNS (env : Env) (domain : String) : List NSInfo × Option Err :=
  match queryRRset env domain 2 resolver false with
  | Except.error _ => ([], none)
  | Except.ok rrset =>
    if nsInfos env rrset = [] then (nsInfos env rrset, some Err.noNS)
    else (nsInfos env rrset, none)

/-- The per-zone key map, `map[uint16]*dns.DNSKEY` in Go, modelled as an
association list whose head entry shadows older ones. -/
abbrev KeyMap := List (Nat × DNSKEY)

/-- Lookup in the key map (`keyMap[tag]`). -/
def keyMapFind (m : KeyMap) (t : Nat) : Option DNSKEY :=
  match m with
  | [] => none
  | (t2, k) :: rest => if t2 = t then some k else keyMapFind rest t

/-- Update of the key map (`keyMap[tag] = key`). -/
def keyMapInsert (m : KeyMap) (t : Nat) (k : DNSKEY) : KeyMap :=
  (t, k) :: m

/-- The answer loop of `LookupDNSKEY`: every DNSKEY is inserted under its
key tag after checking that an existing entry with the same tag carries the
same public key; a differing public key aborts with the inconsistent-keys
error.  The boolean records whether any DNSKEY was seen. -/
def lookupKeysLoop : List RR → Bool → KeyMap → Except Err (Bool × KeyMap)
  | [], found, m => Except.ok (found, m)
  | rr :: rest, found, m =>
    match rr.data with
    | RRData.dnskey key =>
      match keyMapFind m key.KeyTag with
      | some exist =>
        if key.publicKey ≠ exist.publicKey then Except.error Err.inconsistentKeys
        else lookupKeysLoop rest true (keyMapInsert m key.KeyTag key)
      | none => lookupKeysLoop rest true (keyMapInsert m key.KeyTag key)
    | _ => lookupKeysLoop rest found m

/-- Translation of `LookupDNSKEY`: a transport error is swallowed (`return
res, nil`) leaving a nil message; otherwise the DNSKEYs of the answer are
folded into the key map, and the absence of any DNSKEY is an error. -/
def LookupDNSKEY (env : Env) (domain nsip : String) (keyMap : KeyMap) : Except Err (Response × KeyMap) :=
  match query env domain 48 nsip true with
  | none => Except.ok (⟨none⟩, keyMap)
  | some msg =>
    match lookupKeysLoop msg.answer false keyMap with
    | Except.error e => Except.error e
    | Except.ok (found, m) =>
      if found = false then Except.error (Err.noDNSKEY domain nsip)
      else Except.ok (⟨some msg⟩, m)

/-- Inner `nsip` loop of the DNSKEY phase of `validateDomain`.  Outer
`none` is a panic inside `validateDNSKEY`; `Except.error` is an early
`return` of the Go function; `Except.ok` carries the key map onward. -/
def dkIPLoop (env : Env) (domain : String) : List String → KeyMap → Option (Except (Bool × Option Err) KeyMap)
  | [], m => some (Except.ok m)
  | nsip :: rest, m =>
    match LookupDNSKEY env domain nsip m with
    | Except.error e => some (Except.error (false, some e))
    | Except.ok (res, m2) =>
      match res.msg with
      | none => dkIPLoop env domain rest m2
      | some msg =>
        match validateDNSKEY env msg.answer with
        | none => none
        | some (valid, _, _) =>
          if valid then dkIPLoop env domain rest m2
          else some (Except.error (false, some (Err.dnskeyValidationFailed domain)))

/-- Outer nameserver loop of the DNSKEY phase of `validateDomain`. -/
def dkNSLoop (env : Env) (domain : String) : List NSInfo → KeyMap → Option (Except (Bool × Option Err) KeyMap)
  | [], m => some (Except.ok m)
  | ns :: rest, m =>
    match dkIPLoop env domain ns.IP m with
    | none => none
    | some (Except.error r) => some (Except.error r)
    | some (Except.ok m2) => dkNSLoop env domain rest m2

/-- The parent-DS answer loop of `validateParentDS`.  A DS whose key tag has
no child DNSKEY is skipped; digest type 3 (GOST) leaves the switch via
`break` before `foundKeyTag` is set; otherwise the child digest is derived
and compared — equality records the linkage and continues (the early return
is commented out in the source), inequality is the early `return false, nil`
(`Except.error ()`).  The boolean threads `foundKeyTag`. -/
def dsScanAnswers (env : Env) (keyMap : KeyMap) : List RR → Bool → Except Unit Bool
  | [], found => Except.ok found
  | rr :: rest, found =>
    match rr.data with
    | RRData.ds parentDS =>
      match keyMapFind keyMap parentDS.keyTag with
      | none => dsScanAnswers env keyMap rest found
      | some key =>
        if parentDS.digestType = 3 then dsScanAnswers env keyMap rest found
        else
          match env.toDS key parentDS.digestType with
          | some childDS =>
            if parentDS.digest = childDS.digest then dsScanAnswers env keyMap rest true
            else Except.error ()
          | none => dsScanAnswers env keyMap rest true
    | _ => dsScanAnswers env keyMap rest found

/-- Inner `nsip` loop of `validateParentDS`: a successful DS query with an
empty answer is the hard `noDS` error; a transport error `break`s to the
next nameserver; otherwise the answers are scanned, a digest mismatch
returning `(false, nil)`. -/
def dsIPLoop (env : Env) (domain : String) (keyMap : KeyMap) : List String → Bool → Except (Bool × Option Err) Bool
  | [], found => Except.ok found
  | nsip :: rest, found =>
    match query env domain 43 nsip true with
    | none => Except.ok found
    | some res =>
      if res.answer = [] then Except.error (false, some (Err.noDS domain nsip))
      else
        match dsScanAnswers env keyMap res.answer found with
        | Except.error _ => Except.error (false, none)
        | Except.ok found2 => dsIPLoop env domain keyMap rest found2

/-- Outer nameserver loop of `validateParentDS`. -/
def dsNSLoop (env : Env) (domain : String) (keyMap : KeyMap) : List NSInfo → Bool → Except (Bool × Option Err) Bool
  | [], found => Except.ok found
  | ns :: rest, found =>
    match dsIPLoop env domain keyMap ns.IP found with
    | Except.error r => Except.error r
    | Except.ok found2 => dsNSLoop env domain keyMap rest found2

/-- Translation of `validateParentDS`: ask every parent nameserver for the
child's DS records and compare digests against the key map; if no DS ever
matched a child key tag, fail with `noMatchingKeyTag`. -/
def validateParentDS (env : Env) (domain : String) (keyMap : KeyMap) : Bool × Option Err :=
  match dsNSLoop env domain keyMap (findNS env (getParentDomain domain)).1 false with
  | Except.error r => r
  | Except.ok found =>
    if found = false then (false, some (Err.noMatchingKeyTag domain (getParentDomain domain)))
    else (true, none)

/-- Translation of `validateDomain`: build the key map over all
`(nameserver, address)` pairs while self-validating each DNSKEY answer,
then run the parent-DS phase.  (The error of `FindNS` is only logged, and
the second `FindNS` call on the parent has no effect in this model.)
`none` models a panic inside `validateDNSKEY`. -/
def validateDomain (env : Env) (domain : String) : Option (Bool × Option Err) :=
  match dkNSLoop env domain (findNS env domain).1 [] with
  | none => none
  | some (Except.error r) => some r
  | some (Except.ok keyMap) => some (validateParentDS env domain keyMap)

theorem nextLabelAux_false_lt :
    ∀ (rest prev : List Char) (i j : Nat), nextLabelAux prev rest i = (j, false) → i < j ∧ j ≤ i + rest.length := by
  intro rest
  induction rest with
  | nil => intro prev i j h; simp [nextLabelAux] at h
  | cons c rest ih =>
    intro prev i j h
    by_cases hr : rest = []
    · subst hr; simp [nextLabelAux] at h
    · rw [nextLabelAux, if_neg hr] at h
      by_cases hc : c = '.' ∧ countLeadingBackslash prev % 2 = 0
      · rw [if_pos hc] at h
        have h1 : i + 1 = j := congrArg Prod.fst h
        simp only [List.length_cons]
        omega
      · rw [if_neg hc] at h
        have h2 := ih (c :: prev) (i + 1) j h
        simp only [List.length_cons]
        omega

/-- If `dnsNextLabel` reports a next label, the cut position is positive and
within the name. -/
theorem dnsNextLabel_false_lt (s : List Char) (j : Nat) (h : dnsNextLabel s = (j, false)) :
    0 < j ∧ j ≤ s.length := by
  have := nextLabelAux_false_lt s [] 0 j h
  omega

theorem getParentDomainL_length_lt (l : List Char) (h : getParentDomainL l ≠ ['.']) :
    (getParentDomainL l).length < l.length := by
  rcases hr : dnsNextLabel l with ⟨j, e⟩
  cases e with
  | true =>
    exfalso
    apply h
    simp [getParentDomainL, hr]
  | false =>
    have hb := dnsNextLabel_false_lt l j hr
    have hl : l ≠ [] := by
      intro hnil
      subst hnil
      simp [dnsNextLabel, nextLabelAux] at hr
    have h0 : 0 < l.length := List.length_pos.mpr hl
    have he : getParentDomainL l = l.drop j := by
      simp [getParentDomainL, hr]
    rw [he, List.length_drop]
    omega

/-- The character data of `getParentDomain` is `getParentDomainL` of the
character data. -/
theorem getParentDomain_data (s : String) : (getParentDomain s).data = getParentDomainL s.data := rfl

theorem getParentDomain_length_lt (s : String) (h : getParentDomain s ≠ ".") :
    (getParentDomain s).length < s.length := by
  have hd : getParentDomainL s.data ≠ ['.'] := by
    intro he
    apply h
    show String.mk (getParentDomainL s.data) = "."
    rw [he]
  have hlt := getParentDomainL_length_lt s.data hd
  exact hlt

/-- Translation of `validateChain`: validate the zone, stop successfully
when the parent is the root, otherwise continue at the parent.  Recursion is
well-founded because a non-root parent name is strictly shorter. -/
def validateChain (env : Env) (domain : String) : Option (Bool × Option Err) :=
  match validateDomain env domain with
  | none => none
  | some (_, some e) => some (false, some e)
  | some (valid, none) =>
    if valid = false then some (false, some Err.chainFailed)
    else
      if h : getParentDomain domain = "." then some (true, none)
      else validateChain env (getParentDomain domain)
termination_by domain.length
decreasing_by
  exact getParentDomain_length_lt domain h

/-! Concrete test fixtures used by counterexamples and witnesses. -/

/-- An RRSIG whose validity window comfortably contains the fixture time
`1760000000`. -/
def sigGood : RRSIG := ⟨48, 8, 7, 1759990000, 1760010000⟩

/-- A DNSKEY with key tag 7. -/
def keyOne : DNSKEY := ⟨257, 3, 8, "PKONE", 7⟩

/-- An environment with no reachable servers, accepting cryptography, at
the fixture time. -/
def env2 : Env := {
  query := fun _ _ _ _ => none
  verify := fun _ _ _ => true
  toDS := fun _ _ => none
  now := 1760000000 }

/-- An RRSIG whose expiration serial 4000000000 lies more than `2^31`
seconds after the fixture time. -/
def sigFar : RRSIG := ⟨2, 8, 7, 1760000000, 4000000000⟩

/-- A signed record set covering one address record with `sigFar`. -/
def rrsetFar : List RR := [⟨"x.", RRData.a "1.2.3.4"⟩, ⟨"x.", RRData.rrsig sigFar⟩]

/-- A single-DNSKEY candidate key list. -/
def keysOne : List RR := [⟨"x.", RRData.dnskey keyOne⟩]

/-- Truncated division by a positive bound is zero on arguments whose
absolute value is below the bound. -/
theorem tdiv_eq_zero_of_natAbs_lt (d n : Int) (h : (d.natAbs : Int) < n) : Int.tdiv d n = 0 := by
  rcases le_or_lt 0 d with hd | hd
  · exact Int.tdiv_eq_zero_of_lt hd (by omega)
  · have h2 := Int.neg_tdiv (-d) n
    rw [neg_neg] at h2
    rw [h2, Int.tdiv_eq_zero_of_lt (by omega : (0:Int) ≤ -d) (by omega), neg_zero]

/-- Claim C2 is refuted at a concrete input: with `now = 1760000000`, an
RRSIG with inception serial `1760000000` and expiration serial `4000000000`
validates successfully (the serial-arithmetic window test passes), yet the
returned end `6147483648 = 4000000000 + 2^31` is more than `2^31` seconds
away from `now` — the adjustment multiple is added with the wrong sign to
ever bring a far serial closer. -/
theorem c2_counterexample :
    validateRRSIG env2 keysOne rrsetFar = some (true, ⟨1760000000, 6147483648⟩, none) ∧
    ¬ (((6147483648 : Int) - env2.now).natAbs < 2147483648) := by
  constructor
  · decide
  · decide

/-- Claim C2 amended: the canonicalised `(start, end)` of `explicitValid`
satisfies `|start - now| < 2^31` and `|end - now| < 2^31` when the
inception and expiration serials themselves lie within `2^31` of `now`
(the returned values then equal the raw serials); for serials further than
`2^31` from `now` the bound fails, as the counterexample shows. -/
theorem c2_amended (env : Env) (rr : RRSIG)
    (h1 : (((rr.inception : Int) - env.now).natAbs : Int) < 2147483648)
    (h2 : (((rr.expiration : Int) - env.now).natAbs : Int) < 2147483648) :
    explicitValid env rr = ((rr.inception : Int), (rr.expiration : Int)) ∧
    (((explicitValid env rr).1 - env.now).natAbs : Int) < 2147483648 ∧
    (((explicitValid env rr).2 - env.now).natAbs : Int) < 2147483648 := by
  have hi : Int.tdiv ((rr.inception : Int) - env.now) year68 = 0 :=
    tdiv_eq_zero_of_natAbs_lt _ _ h1
  have he : Int.tdiv ((rr.expiration : Int) - env.now) year68 = 0 :=
    tdiv_eq_zero_of_natAbs_lt _ _ h2
  have hv : explicitValid env rr = ((rr.inception : Int), (rr.expiration : Int)) := by
    simp only [explicitValid]
    rw [hi, he]
    simp
  refine ⟨hv, ?_, ?_⟩
  · rw [hv]; exact h1
  · rw [hv]; exact h2

/-- Witness for the amended C2 at a concrete in-window RRSIG. -/
theorem c2_amended_witness :
    (((sigGood.inception : Int) - env2.now).natAbs : Int) < 2147483648 ∧
    explicitValid env2 sigGood = ((sigGood.inception : Int), (sigGood.expiration : Int)) ∧
    (((explicitValid env2 sigGood).1 - env2.now).natAbs : Int) < 2147483648 ∧
    (((explicitValid env2 sigGood).2 - env2.now).natAbs : Int) < 2147483648 := by
  refine ⟨by decide, ?_⟩
  exact c2_amended env2 sigGood (by decide) (by decide)

/-! Vocabulary of claim C4: fully qualified names as label sequences
(spec section 3: a name is a sequence of labels ending with the root
label, the root being the single-label name "."). -/

/-- A presentation-form label: non-empty, without dots or escape
backslashes. -/
def validLabel (l : List Char) : Prop := l ≠ [] ∧ '.' ∉ l ∧ '\\' ∉ l

/-- Render labels with a trailing dot each. -/
def joinLabels : List (List Char) → List Char
  | [] => []
  | l :: ls => l ++ '.' :: joinLabels ls

/-- The fully qualified presentation form of a label sequence; the empty
sequence is the root name ".". -/
def fqdn (ls : List (List Char)) : List Char :=
  if ls = [] then ['.'] else joinLabels ls

/-- The fully qualified name as a string. -/
def fqdnS (ls : List (List Char)) : String := String.mk (fqdn ls)

/-- Label count of a fully qualified name, counting the terminal root
label: the number of label-terminating dots, plus one for the root except
on the root name itself. -/
def labelCount (s : List Char) : Nat :=
  s.count '.' + (if s = ['.'] then 0 else 1)

theorem countLeadingBackslash_cons_ne (c : Char) (prev : List Char) (hc : c ≠ '\\') :
    countLeadingBackslash (c :: prev) = 0 := by
  simp [countLeadingBackslash, hc]

/-- Scanning a dot-free, backslash-free label followed by a dot: the scan
stops right after that dot, reporting the end of the name exactly when
nothing follows. -/
theorem nextLabelAux_label (l : List Char) (hdot : '.' ∉ l) (hbs : '\\' ∉ l) :
    ∀ (prev rest : List Char) (i : Nat), countLeadingBackslash prev % 2 = 0 →
      nextLabelAux prev (l ++ '.' :: rest) i =
        (if rest = [] then (i + l.length + 1, true) else (i + l.length + 1, false)) := by
  induction l with
  | nil =>
    intro prev rest i hp
    by_cases hr : rest = []
    · simp [nextLabelAux, hr]
    · rw [List.nil_append, nextLabelAux, if_neg hr, if_pos ⟨rfl, hp⟩, if_neg hr]
      simp
  | cons c l ih =>
    intro prev rest i hp
    have hc1 : c ≠ '.' := fun h => hdot (h ▸ List.mem_cons_self c l)
    have hc2 : c ≠ '\\' := fun h => hbs (h ▸ List.mem_cons_self c l)
    have hne : l ++ '.' :: rest ≠ [] := by simp
    rw [List.cons_append, nextLabelAux, if_neg hne, if_neg (fun hand => hc1 hand.1)]
    rw [ih (fun h => hdot (List.mem_cons_of_mem c h)) (fun h => hbs (List.mem_cons_of_mem c h))
      (c :: prev) rest (i + 1) (by rw [countLeadingBackslash_cons_ne c prev hc2])]
    have harith : i + 1 + l.length + 1 = i + (c :: l).length + 1 := by
      simp [List.length_cons]; omega
    rw [harith]

/-- A rendered label sequence is empty only for the empty sequence. -/
theorem joinLabels_ne_nil (l : List Char) (ls : List (List Char)) :
    joinLabels (l :: ls) ≠ [] := by
  simp [joinLabels]

/-- The parent of a rendered fully qualified name drops exactly the
leftmost label. -/
theorem getParentDomainL_fqdn (l : List Char) (hl : validLabel l) (ls : List (List Char)) :
    getParentDomainL (fqdn (l :: ls)) = fqdn ls := by
  obtain ⟨hne, hdot, hbs⟩ := hl
  cases ls with
  | nil =>
    have hscan : nextLabelAux [] (l ++ '.' :: ([] : List Char)) 0 = (0 + l.length + 1, true) := by
      have hs := nextLabelAux_label l hdot hbs [] [] 0 (by rfl)
      simpa using hs
    have hjoin : fqdn (l :: []) = l ++ '.' :: ([] : List Char) := by
      simp [fqdn, joinLabels]
    rw [hjoin]
    simp [getParentDomainL, dnsNextLabel, hscan, fqdn]
  | cons l2 ls2 =>
    have hrest : joinLabels (l2 :: ls2) ≠ [] := joinLabels_ne_nil l2 ls2
    have hscan : nextLabelAux [] (l ++ '.' :: joinLabels (l2 :: ls2)) 0 = (0 + l.length + 1, false) := by
      have hs := nextLabelAux_label l hdot hbs [] (joinLabels (l2 :: ls2)) 0 (by rfl)
      rwa [if_neg hrest] at hs
    have hjoin : fqdn (l :: l2 :: ls2) = l ++ '.' :: joinLabels (l2 :: ls2) := by
      simp [fqdn, joinLabels]
    have hdrop : (l ++ '.' :: joinLabels (l2 :: ls2)).drop (0 + l.length + 1) = joinLabels (l2 :: ls2) := by
      have heq : l ++ '.' :: joinLabels (l2 :: ls2) = (l ++ ['.']) ++ joinLabels (l2 :: ls2) := by simp
      rw [heq]
      have hlen : 0 + l.length + 1 = (l ++ ['.']).length := by simp
      rw [hlen, List.drop_left]
    rw [hjoin]
    simp [getParentDomainL, dnsNextLabel, hscan, hdrop, fqdn]

/-- String form of the leftmost-label removal. -/
theorem getParentDomain_fqdnS (l : List Char) (hl : validLabel l) (ls : List (List Char)) :
    getParentDomain (fqdnS (l :: ls)) = fqdnS ls := by
  show String.mk (getParentDomainL (fqdn (l :: ls))) = fqdnS ls
  rw [getParentDomainL_fqdn l hl ls]
  rfl

/-- Dot count of a rendering of dot-free labels equals the label count. -/
theorem joinLabels_count_dot (ls : List (List Char)) (h : ∀ l ∈ ls, validLabel l) :
    (joinLabels ls).count '.' = ls.length := by
  induction ls with
  | nil => rfl
  | cons l ls ih =>
    have hl := h l (List.mem_cons_self l ls)
    have hcount : l.count '.' = 0 := List.count_eq_zero.mpr hl.2.1
    simp [joinLabels, List.count_append, List.count_cons, hcount,
      ih (fun x hx => h x (List.mem_cons_of_mem l hx))]

/-- Claim C4: for every fully qualified domain, iterating
`getParentDomain` as many times as there are non-root labels reaches the
root name ".", which is strictly fewer steps than the label count of the
name (the terminal root label included); `getParentDomain` removes exactly
the leftmost label and maps the root to itself — and therefore the
`validateChain` loop, which recurses on the parent precisely while it is
not ".", terminates (in this embedding `validateChain` is well-founded by
the strictly decreasing name length). -/
theorem c4_parent_termination (ls : List (List Char)) (h : ∀ l ∈ ls, validLabel l) :
    getParentDomain^[ls.length] (fqdnS ls) = "." ∧
    ls.length < labelCount (fqdn ls) ∧
    getParentDomain "." = "." ∧
    (∀ l, validLabel l → getParentDomain (fqdnS (l :: ls)) = fqdnS ls) := by
  refine ⟨?_, ?_, by decide, fun l hl => getParentDomain_fqdnS l hl ls⟩
  · induction ls with
    | nil => rfl
    | cons l ls ih =>
      have hl := h l (List.mem_cons_self l ls)
      rw [List.length_cons, Function.iterate_succ_apply, getParentDomain_fqdnS l hl ls]
      exact ih (fun x hx => h x (List.mem_cons_of_mem l hx))
  · cases hls : ls with
    | nil => decide
    | cons l2 ls2 =>
      have hjoin : fqdn (l2 :: ls2) = joinLabels (l2 :: ls2) := by
        simp [fqdn]
      have hne2 : fqdn (l2 :: ls2) ≠ ['.'] := by
        rw [hjoin]
        have hl2 := h l2 (hls ▸ List.mem_cons_self l2 ls2)
        rcases hl2 with ⟨hne2, hdot2, _⟩
        cases hl2v : l2 with
        | nil => exact absurd hl2v hne2
        | cons c cs =>
          simp only [joinLabels, hl2v, List.cons_append]
          intro hcontra
          have hc : c = '.' := by
            have := congrArg (fun t => t.headI) hcontra
            simpa using this
          exact hdot2 (hc ▸ (hl2v ▸ List.mem_cons_self c cs))
      rw [labelCount, if_neg hne2, hjoin, joinLabels_count_dot (l2 :: ls2) (hls ▸ h)]
      simp

/-- Witness for C4 at the three-label name "a.b.c.". -/
theorem c4_witness :
    (∀ l ∈ [['a'], ['b'], ['c']], validLabel l) ∧
    getParentDomain^[3] (fqdnS [['a'], ['b'], ['c']]) = "." ∧
    3 < labelCount (fqdn [['a'], ['b'], ['c']]) := by
  have hv : ∀ l ∈ [['a'], ['b'], ['c']], validLabel l := by
    intro l hl
    fin_cases hl <;> exact ⟨by decide, by decide, by decide⟩
  have hc := c4_parent_termination [['a'], ['b'], ['c']] hv
  exact ⟨hv, hc.1, hc.2.1⟩

/-! Signature-verifier lemmas for claims C6, C9 and C10. -/

/-- Whether a record is an RRSIG (the type switch of the partition loop). -/
def rrsigOnly (rr : RR) : Bool :=
  match rr.data with
  | RRData.rrsig _ => true
  | _ => false

/-- Whether a record set contains a covering RRSIG. -/
def hasRRSIG (rrset : List RR) : Bool := rrset.any rrsigOnly

/-- Whether one candidate key makes the verifier succeed outright: a DNSKEY
whose cryptographic verification over the clean set succeeds while the
validity window holds. -/
def keyYields (env : Env) (s : RRSIG) (cleanset : List RR) (rr : RR) : Bool :=
  match rr.data with
  | RRData.dnskey key => IsRRset cleanset && env.verify s key cleanset && ValidityPeriod env s
  | _ => false

theorem splitSig_foldl_all_rrsig (l : List RR) :
    ∀ acc, l.all rrsigOnly = true → (l.foldl splitSigStep acc).2 = acc.2 := by
  induction l with
  | nil => intro acc _; rfl
  | cons rr rest ih =>
    intro acc h
    rw [List.all_cons, Bool.and_eq_true] at h
    obtain ⟨h1, h2⟩ := h
    rw [List.foldl_cons, ih (splitSigStep acc rr) h2]
    cases hd : rr.data <;> rw [rrsigOnly, hd] at h1 <;> simp at h1
    simp [splitSigStep, hd]

theorem tryKeys_nil_cleanset (env : Env) (sig : Option RRSIG) :
    ∀ keys, tryKeys env sig [] keys = some (false, ⟨0, 0⟩, none) := by
  intro keys
  induction keys with
  | nil => rfl
  | cons k rest ih =>
    cases hd : k.data <;> simp [tryKeys, hd, sigVerify, IsRRset, ih]

/-- Claim C6: a record set with no non-RRSIG records (the empty set
included) makes `validateRRSIG` return `(false, empty KeyInfo)` with a nil
error, for every candidate key list. -/
theorem c6_empty_signed_set (env : Env) (keys rrset : List RR)
    (h : rrset.all rrsigOnly = true) :
    validateRRSIG env keys rrset = some (false, ⟨0, 0⟩, none) := by
  by_cases hr : rrset = []
  · simp [validateRRSIG, hr]
  · have hclean : (splitSig rrset).2 = [] := by
      have hh := splitSig_foldl_all_rrsig rrset (none, []) h
      simpa [splitSig] using hh
    rw [validateRRSIG, if_neg hr, hclean, tryKeys_nil_cleanset]

/-- A record set consisting of one RRSIG only. -/
def rrsetSigOnly : List RR := [⟨"x.", RRData.rrsig sigFar⟩]

/-- Witness for C6: a set holding only an RRSIG is reported unvalidated
without error. -/
theorem c6_witness :
    rrsetSigOnly.all rrsigOnly = true ∧
    validateRRSIG env2 keysOne rrsetSigOnly = some (false, ⟨0, 0⟩, none) :=
  ⟨by decide, c6_empty_signed_set env2 keysOne rrsetSigOnly (by decide)⟩

theorem tryKeys_all_fail (env : Env) (s : RRSIG) (cleanset : List RR) :
    ∀ keys, keys.all (fun k => !keyYields env s cleanset k) = true →
      tryKeys env (some s) cleanset keys = some (false, ⟨0, 0⟩, none) := by
  intro keys
  induction keys with
  | nil => intro _; rfl
  | cons k rest ih =>
    intro h
    rw [List.all_cons, Bool.and_eq_true] at h
    obtain ⟨hk, hrest⟩ := h
    cases hd : k.data with
    | dnskey key =>
      simp only [keyYields, hd] at hk
      by_cases hrr : IsRRset cleanset = true
      · by_cases hv : env.verify s key cleanset = true
        · have hvp : ValidityPeriod env s = false := by
            rw [hrr, hv] at hk
            simpa using hk
          simp [tryKeys, hd, sigVerify, hrr, hv, hvp, ih hrest]
        · have hvf : env.verify s key cleanset = false := by
            simpa using hv
          simp [tryKeys, hd, sigVerify, hrr, hvf, ih hrest]
      · have hrf : IsRRset cleanset = false := by
          simpa using hrr
        simp [tryKeys, hd, sigVerify, hrf, ih hrest]
    | rrsig s2 => simp [tryKeys, hd, ih hrest]
    | ds d => simp [tryKeys, hd, ih hrest]
    | ns n => simp [tryKeys, hd, ih hrest]
    | a ip => simp [tryKeys, hd, ih hrest]
    | aaaa ip => simp [tryKeys, hd, ih hrest]
    | other t => simp [tryKeys, hd, ih hrest]

/-- Claim C9: a key that verifies cryptographically while the current time
lies outside the validity window does not end the key loop — the verifier
continues with the remaining keys — and when no key yields both
cryptographic and temporal validity, `validateRRSIG` returns
`(false, empty KeyInfo)` with a nil error. -/
theorem c9_stale_continue (env : Env) (s : RRSIG) (cleanset : List RR) :
    (∀ (k : RR) (key : DNSKEY) (rest : List RR), k.data = RRData.dnskey key →
      IsRRset cleanset = true → env.verify s key cleanset = true →
      ValidityPeriod env s = false →
      tryKeys env (some s) cleanset (k :: rest) = tryKeys env (some s) cleanset rest) ∧
    (∀ (keys rrset : List RR), rrset ≠ [] → splitSig rrset = (some s, cleanset) →
      keys.all (fun k => !keyYields env s cleanset k) = true →
      validateRRSIG env keys rrset = some (false, ⟨0, 0⟩, none)) := by
  constructor
  · intro k key rest hd hrr hv hvp
    simp [tryKeys, hd, sigVerify, hrr, hv, hvp]
  · intro keys rrset hne hsplit hall
    rw [validateRRSIG, if_neg hne, hsplit]
    exact tryKeys_all_fail env s cleanset keys hall

/-- An RRSIG whose window ended before the fixture time `1760000000`. -/
def sigStale : RRSIG := ⟨1, 8, 7, 1758000000, 1759000000⟩

/-- A signed record set covered by the stale signature. -/
def rrsetStale : List RR := [⟨"x.", RRData.a "1.2.3.4"⟩, ⟨"x.", RRData.rrsig sigStale⟩]

/-- The clean set of `rrsetStale`. -/
def cleanStale : List RR := [⟨"x.", RRData.a "1.2.3.4"⟩]

/-- Witness for C9: with a cryptographically valid but expired signature
the verifier moves past the successful key and ends negatively without an
error. -/
theorem c9_witness :
    tryKeys env2 (some sigStale) cleanStale keysOne = tryKeys env2 (some sigStale) cleanStale [] ∧
    validateRRSIG env2 keysOne rrsetStale = some (false, ⟨0, 0⟩, none) := by
  constructor
  · exact (c9_stale_continue env2 sigStale cleanStale).1 ⟨"x.", RRData.dnskey keyOne⟩ keyOne []
      rfl (by decide) (by decide) (by decide)
  · exact (c9_stale_continue env2 sigStale cleanStale).2 keysOne rrsetStale (by decide)
      (by decide) (by decide)

theorem splitSig_foldl_hasRRSIG (l : List RR) :
    ∀ acc, (l.any rrsigOnly = true ∨ (acc.1).isSome = true) →
      ((l.foldl splitSigStep acc).1).isSome = true := by
  induction l with
  | nil =>
    intro acc h
    rcases h with h | h
    · simp at h
    · exact h
  | cons rr rest ih =>
    intro acc h
    rw [List.foldl_cons]
    apply ih
    cases hd : rr.data with
    | rrsig s =>
      exact Or.inr (by simp [splitSigStep, hd])
    | dnskey key =>
      rcases h with h | h
      · rw [List.any_cons, Bool.or_eq_true] at h
        exact Or.inl (h.resolve_left (by rw [rrsigOnly, hd]; simp))
      · exact Or.inr (by simpa [splitSigStep, hd] using h)
    | ds d =>
      rcases h with h | h
      · rw [List.any_cons, Bool.or_eq_true] at h
        exact Or.inl (h.resolve_left (by rw [rrsigOnly, hd]; simp))
      · exact Or.inr (by simpa [splitSigStep, hd] using h)
    | ns n =>
      rcases h with h | h
      · rw [List.any_cons, Bool.or_eq_true] at h
        exact Or.inl (h.resolve_left (by rw [rrsigOnly, hd]; simp))
      · exact Or.inr (by simpa [splitSigStep, hd] using h)
    | a ip =>
      rcases h with h | h
      · rw [List.any_cons, Bool.or_eq_true] at h
        exact Or.inl (h.resolve_left (by rw [rrsigOnly, hd]; simp))
      · exact Or.inr (by simpa [splitSigStep, hd] using h)
    | aaaa ip =>
      rcases h with h | h
      · rw [List.any_cons, Bool.or_eq_true] at h
        exact Or.inl (h.resolve_left (by rw [rrsigOnly, hd]; simp))
      · exact Or.inr (by simpa [splitSigStep, hd] using h)
    | other t =>
      rcases h with h | h
      · rw [List.any_cons, Bool.or_eq_true] at h
        exact Or.inl (h.resolve_left (by rw [rrsigOnly, hd]; simp))
      · exact Or.inr (by simpa [splitSigStep, hd] using h)

theorem tryKeys_isSome (env : Env) (s : RRSIG) (cleanset : List RR) :
    ∀ keys, (tryKeys env (some s) cleanset keys).isSome = true := by
  intro keys
  induction keys with
  | nil => rfl
  | cons k rest ih =>
    cases hd : k.data with
    | dnskey key =>
      by_cases hrr : IsRRset cleanset = true
      · by_cases hvp : ValidityPeriod env s = true
        · cases hv : env.verify s key cleanset <;>
            simp [tryKeys, hd, sigVerify, hrr, hv, hvp, ih]
        · have hvpf : ValidityPeriod env s = false := by simpa using hvp
          cases hv : env.verify s key cleanset <;>
            simp [tryKeys, hd, sigVerify, hrr, hv, hvpf, ih]
      · have hrf : IsRRset cleanset = false := by simpa using hrr
        simp [tryKeys, hd, sigVerify, hrf, ih]
    | rrsig s2 => simp [tryKeys, hd, ih]
    | ds d => simp [tryKeys, hd, ih]
    | ns n => simp [tryKeys, hd, ih]
    | a ip => simp [tryKeys, hd, ih]
    | aaaa ip => simp [tryKeys, hd, ih]
    | other t => simp [tryKeys, hd, ih]

/-- A record set with one non-RRSIG record and no RRSIG: the input on which
the Go verifier dereferences the nil signature pointer. -/
def rrsetCrash : List RR := [⟨"x.", RRData.a "1.2.3.4"⟩]

/-- Claim C10: `validateRRSIG` is not total — with a non-RRSIG record, no
covering RRSIG and a DNSKEY candidate it reaches `sig.Verify` on a nil
`sig` and panics (modelled `none`); with a covering RRSIG present in the
record set the call always returns. -/
theorem c10_nil_sig_crash :
    validateRRSIG env2 keysOne rrsetCrash = none ∧
    ∀ (env : Env) (keys rrset : List RR), hasRRSIG rrset = true →
      (validateRRSIG env keys rrset).isSome = true := by
  constructor
  · decide
  · intro env keys rrset h
    by_cases hne : rrset = []
    · simp [validateRRSIG, hne]
    · have hsig : ((splitSig rrset).1).isSome = true :=
        splitSig_foldl_hasRRSIG rrset (none, []) (Or.inl h)
      rcases hs : (splitSig rrset).1 with _ | s
      · rw [hs] at hsig; simp at hsig
      · rw [validateRRSIG, if_neg hne, hs]
        exact tryKeys_isSome env s (splitSig rrset).2 keys

/-- Witness for C10's totality part at a concrete covered record set. -/
theorem c10_witness :
    hasRRSIG rrsetStale = true ∧
    (validateRRSIG env2 keysOne rrsetStale).isSome = true :=
  ⟨by decide, c10_nil_sig_crash.2 env2 keysOne rrsetStale (by decide)⟩

/-! Claims C7 and C8: what really happens on wire-layer failures. -/

/-- A DNSKEY with key tag 9. -/
def keyTwo : DNSKEY := ⟨257, 3, 8, "PKTWO", 9⟩

/-- A zone served by two nameservers where the first address fails at the
wire layer on the DNSKEY query while the second serves a fully consistent
DNSSEC setup whose parent DS digest agrees with the child key. -/
def env7 : Env := {
  query := fun q qtype server _ =>
    if q = "zone.test." ∧ qtype = 2 then
      some ⟨[⟨"zone.test.", RRData.ns "ns1.test."⟩, ⟨"zone.test.", RRData.ns "ns2.test."⟩]⟩
    else if q = "ns1.test." ∧ qtype = 1 then
      some ⟨[⟨"ns1.test.", RRData.a "1.1.1.1"⟩]⟩
    else if q = "ns2.test." ∧ qtype = 1 then
      some ⟨[⟨"ns2.test.", RRData.a "2.2.2.2"⟩]⟩
    else if q = "zone.test." ∧ qtype = 48 ∧ server = "2.2.2.2" then
      some ⟨[⟨"zone.test.", RRData.dnskey keyTwo⟩, ⟨"zone.test.", RRData.rrsig sigGood⟩]⟩
    else if q = "test." ∧ qtype = 2 then
      some ⟨[⟨"test.", RRData.ns "nsp.test."⟩]⟩
    else if q = "nsp.test." ∧ qtype = 1 then
      some ⟨[⟨"nsp.test.", RRData.a "3.3.3.3"⟩]⟩
    else if q = "zone.test." ∧ qtype = 43 ∧ server = "3.3.3.3" then
      some ⟨[⟨"zone.test.", RRData.ds ⟨9, 2, "MATCH"⟩⟩]⟩
    else none
  verify := fun _ _ _ => true
  toDS := fun key dt => some ⟨key.keyTagVal, dt, "MATCH"⟩
  now := 1760000000 }

/-- Claim C7 is refuted at a concrete zone: the DNSKEY query to the first
authoritative address fails at the wire layer, yet `validateDomain`
succeeds — the transport failure is swallowed, not surfaced. -/
theorem c7_counterexample :
    query env7 "zone.test." 48 "1.1.1.1" true = none ∧
    validateDomain env7 "zone.test." = some (true, none) := by
  constructor
  · decide
  · decide

/-- Claim C7 amended: a wire-layer failure of the DNSKEY query is
swallowed — `LookupDNSKEY` turns it into a nil-error response with a nil
message, and the zone validator's address loop skips that address and
continues unchanged with the remaining ones. -/
theorem c7_amended (env : Env) (domain nsip : String) (keyMap : KeyMap) (rest : List String)
    (h : query env domain 48 nsip true = none) :
    LookupDNSKEY env domain nsip keyMap = Except.ok (⟨none⟩, keyMap) ∧
    dkIPLoop env domain (nsip :: rest) keyMap = dkIPLoop env domain rest keyMap := by
  constructor
  · rw [LookupDNSKEY, h]
  · rw [dkIPLoop, LookupDNSKEY, h]

/-- Witness for the amended C7 at the failing address of `env7`. -/
theorem c7_amended_witness :
    query env7 "zone.test." 48 "1.1.1.1" true = none ∧
    LookupDNSKEY env7 "zone.test." "1.1.1.1" [] = Except.ok (⟨none⟩, []) ∧
    dkIPLoop env7 "zone.test." ["1.1.1.1"] [] = dkIPLoop env7 "zone.test." [] [] := by
  refine ⟨by decide, ?_⟩
  exact c7_amended env7 "zone.test." "1.1.1.1" [] [] (by decide)

/-- An environment in which every wire exchange fails. -/
def env8 : Env := {
  query := fun _ _ _ _ => none
  verify := fun _ _ _ => false
  toDS := fun _ _ => none
  now := 0 }

/-- Claim C8 is refuted at a concrete input: when the NS query fails at the
transport layer, `findNS` returns the empty nameserver list together with a
NIL error, not a `NoNameservers` error. -/
theorem c8_counterexample :
    Env.query env8 "example.com." 2 resolver false = none ∧
    findNS env8 "example.com." = ([], none) := by
  constructor
  · decide
  · decide

/-- Claim C8 amended: when the underlying NS query fails (transport error
or no NS records), `findNS` returns the empty list with a NIL error; the
non-nil `noNS` error accompanies an empty list only on the success path of
the query. -/
theorem c8_amended (env : Env) (domain : String) (e : Err)
    (h : queryRRset env domain 2 resolver false = Except.error e) :
    findNS env domain = ([], none) ∧
    (∀ (env2 : Env) (d2 : String), (findNS env2 d2).2 = some Err.noNS → (findNS env2 d2).1 = []) := by
  constructor
  · rw [findNS, h]
  · intro env2 d2 h2
    rw [findNS] at h2 ⊢
    cases hq : queryRRset env2 d2 2 resolver false with
    | error e2 => simp
    | ok rrset =>
      rw [hq] at h2
      by_cases hempty : nsInfos env2 rrset = []
      · simp [hempty]
      · simp [hempty] at h2

/-- Witness for the amended C8 in the all-failing environment. -/
theorem c8_amended_witness :
    queryRRset env8 "example.com." 2 resolver false = Except.error Err.transportError ∧
    findNS env8 "example.com." = ([], none) := by
  refine ⟨rfl, ?_⟩
  exact (c8_amended env8 "example.com." Err.transportError rfl).1

/-! DS-phase predicates and lemmas for claims C1 and C5. -/

/-- A DS record on which the parent-DS scan returns early with
`(false, nil)`: its key tag matches a child DNSKEY, its digest type is not
3, the derived child DS exists, and the digests differ. -/
def dsMismatchRec (env : Env) (keyMap : KeyMap) (rr : RR) : Bool :=
  match rr.data with
  | RRData.ds d =>
    match keyMapFind keyMap d.keyTag with
    | none => false
    | some key =>
      if d.digestType = 3 then false
      else
        match env.toDS key d.digestType with
        | some childDS => decide (d.digest ≠ childDS.digest)
        | none => false
  | _ => false

/-- A DS record that matches a child key tag with a non-GOST digest type:
exactly the records able to set `foundKeyTag`. -/
def dsTagMatchRec (keyMap : KeyMap) (rr : RR) : Bool :=
  match rr.data with
  | RRData.ds d => (keyMapFind keyMap d.keyTag).isSome && decide (d.digestType ≠ 3)
  | _ => false

/-- The DS query to one parent address succeeds with a non-empty answer. -/
def dsPairOk (env : Env) (domain : String) (nsip : String) : Bool :=
  match query env domain 43 nsip true with
  | some res => decide (res.answer ≠ [])
  | none => false

/-- The DS answer of one parent address contains a mismatching record. -/
def dsPairMismatch (env : Env) (domain : String) (keyMap : KeyMap) (nsip : String) : Bool :=
  match query env domain 43 nsip true with
  | some res => res.answer.any (fun rr => dsMismatchRec env keyMap rr)
  | none => false

/-- The DS answer of one parent address contains no record able to set
`foundKeyTag`. -/
def dsPairSkipped (env : Env) (domain : String) (keyMap : KeyMap) (nsip : String) : Bool :=
  match query env domain 43 nsip true with
  | some res => res.answer.all (fun rr => !dsTagMatchRec keyMap rr)
  | none => true

theorem dsScan_cons_error (env : Env) (keyMap : KeyMap) (rr : RR) (rest : List RR) (found : Bool)
    (hm : dsMismatchRec env keyMap rr = true) :
    dsScanAnswers env keyMap (rr :: rest) found = Except.error () := by
  cases hd : rr.data
  case ds d =>
    simp only [dsMismatchRec, hd] at hm
    cases hf : keyMapFind keyMap d.keyTag
    · simp [hf] at hm
    case some key =>
      simp only [hf] at hm
      by_cases h3 : d.digestType = 3
      · simp [h3] at hm
      · simp only [if_neg h3] at hm
        cases ht : env.toDS key d.digestType
        · simp [ht] at hm
        · rename_i childDS
          simp only [ht] at hm
          have hne : ¬ d.digest = childDS.digest := by simpa using hm
          simp [dsScanAnswers, hd, hf, h3, ht, hne]
  all_goals simp [dsMismatchRec, hd] at hm

theorem dsScan_cons_continue (env : Env) (keyMap : KeyMap) (rr : RR) (rest : List RR) (found : Bool)
    (hm : dsMismatchRec env keyMap rr = false) :
    dsScanAnswers env keyMap (rr :: rest) found = dsScanAnswers env keyMap rest found ∨
    dsScanAnswers env keyMap (rr :: rest) found = dsScanAnswers env keyMap rest true := by
  cases hd : rr.data
  case ds d =>
    simp only [dsMismatchRec, hd] at hm
    cases hf : keyMapFind keyMap d.keyTag
    · left; simp [dsScanAnswers, hd, hf]
    case some key =>
      simp only [hf] at hm
      by_cases h3 : d.digestType = 3
      · left; simp [dsScanAnswers, hd, hf, h3]
      · simp only [if_neg h3] at hm
        cases ht : env.toDS key d.digestType
        · right; simp [dsScanAnswers, hd, hf, h3, ht]
        · rename_i childDS
          simp only [ht] at hm
          have heq : d.digest = childDS.digest := by simpa using hm
          right; simp [dsScanAnswers, hd, hf, h3, ht, heq]
  all_goals left; simp [dsScanAnswers, hd]

theorem dsScan_cons_skip (env : Env) (keyMap : KeyMap) (rr : RR) (rest : List RR) (found : Bool)
    (hm : dsTagMatchRec keyMap rr = false) :
    dsScanAnswers env keyMap (rr :: rest) found = dsScanAnswers env keyMap rest found := by
  cases hd : rr.data
  case ds d =>
    simp only [dsTagMatchRec, hd] at hm
    cases hf : keyMapFind keyMap d.keyTag
    · simp [dsScanAnswers, hd, hf]
    case some key =>
      simp only [hf] at hm
      have h3 : d.digestType = 3 := by simpa using hm
      simp [dsScanAnswers, hd, hf, h3]
  all_goals simp [dsScanAnswers, hd]

theorem dsScan_error_of_any (env : Env) (keyMap : KeyMap) :
    ∀ (answers : List RR) (found : Bool),
      answers.any (fun rr => dsMismatchRec env keyMap rr) = true →
      dsScanAnswers env keyMap answers found = Except.error () := by
  intro answers
  induction answers with
  | nil => intro found h; simp at h
  | cons rr rest ih =>
    intro found h
    rw [List.any_cons, Bool.or_eq_true] at h
    by_cases hm : dsMismatchRec env keyMap rr = true
    · exact dsScan_cons_error env keyMap rr rest found hm
    · have hr : rest.any (fun rr => dsMismatchRec env keyMap rr) = true := by
        rcases h with h | h
        · exact absurd h hm
        · exact h
      rcases dsScan_cons_continue env keyMap rr rest found (by simpa using hm) with hc | hc
      · rw [hc]; exact ih found hr
      · rw [hc]; exact ih true hr

theorem dsScan_ok_of_no_mismatch (env : Env) (keyMap : KeyMap) :
    ∀ (answers : List RR) (found : Bool),
      answers.any (fun rr => dsMismatchRec env keyMap rr) = false →
      ∃ f2, dsScanAnswers env keyMap answers found = Except.ok f2 := by
  intro answers
  induction answers with
  | nil => intro found _; exact ⟨found, rfl⟩
  | cons rr rest ih =>
    intro found h
    rw [List.any_cons, Bool.or_eq_false_iff] at h
    obtain ⟨h1, h2⟩ := h
    rcases dsScan_cons_continue env keyMap rr rest found h1 with hc | hc
    · rw [hc]; exact ih found h2
    · rw [hc]; exact ih true h2

theorem dsScan_skip_all (env : Env) (keyMap : KeyMap) :
    ∀ (answers : List RR) (found : Bool),
      answers.all (fun rr => !dsTagMatchRec keyMap rr) = true →
      dsScanAnswers env keyMap answers found = Except.ok found := by
  intro answers
  induction answers with
  | nil => intro found _; rfl
  | cons rr rest ih =>
    intro found h
    rw [List.all_cons, Bool.and_eq_true] at h
    obtain ⟨h1, h2⟩ := h
    have h1f : dsTagMatchRec keyMap rr = false := by simpa using h1
    rw [dsScan_cons_skip env keyMap rr rest found h1f]
    exact ih found h2

theorem dsIPLoop_error_of_mismatch (env : Env) (domain : String) (keyMap : KeyMap) :
    ∀ (ips : List String) (found : Bool),
      ips.all (dsPairOk env domain) = true →
      ips.any (dsPairMismatch env domain keyMap) = true →
      dsIPLoop env domain keyMap ips found = Except.error (false, none) := by
  intro ips
  induction ips with
  | nil => intro found _ hany; simp at hany
  | cons ip rest ih =>
    intro found hall hany
    rw [List.all_cons, Bool.and_eq_true] at hall
    obtain ⟨hok1, hokr⟩ := hall
    rw [List.any_cons, Bool.or_eq_true] at hany
    unfold dsPairOk at hok1
    cases hq : query env domain 43 ip true
    · rw [hq] at hok1; simp at hok1
    case some res =>
      rw [hq] at hok1
      have hne : ¬ res.answer = [] := by simpa using hok1
      by_cases hm1 : res.answer.any (fun rr => dsMismatchRec env keyMap rr) = true
      · simp only [dsIPLoop, hq, if_neg hne,
          dsScan_error_of_any env keyMap res.answer found hm1]
      · have hmr : rest.any (dsPairMismatch env domain keyMap) = true := by
          rcases hany with h1 | h1
          · unfold dsPairMismatch at h1
            rw [hq] at h1
            exact absurd h1 hm1
          · exact h1
        obtain ⟨f2, hf2⟩ := dsScan_ok_of_no_mismatch env keyMap res.answer found (by simpa using hm1)
        simp only [dsIPLoop, hq, if_neg hne, hf2]
        exact ih f2 hokr hmr

theorem dsIPLoop_ok_of_no_mismatch (env : Env) (domain : String) (keyMap : KeyMap) :
    ∀ (ips : List String) (found : Bool),
      ips.all (dsPairOk env domain) = true →
      ips.any (dsPairMismatch env domain keyMap) = false →
      ∃ f2, dsIPLoop env domain keyMap ips found = Except.ok f2 := by
  intro ips
  induction ips with
  | nil => intro found _ _; exact ⟨found, rfl⟩
  | cons ip rest ih =>
    intro found hall hany
    rw [List.all_cons, Bool.and_eq_true] at hall
    obtain ⟨hok1, hokr⟩ := hall
    rw [List.any_cons, Bool.or_eq_false_iff] at hany
    obtain ⟨hany1, hanyr⟩ := hany
    unfold dsPairOk at hok1
    unfold dsPairMismatch at hany1
    cases hq : query env domain 43 ip true
    · rw [hq] at hok1; simp at hok1
    case some res =>
      rw [hq] at hok1 hany1
      have hne : ¬ res.answer = [] := by simpa using hok1
      obtain ⟨f2, hf2⟩ := dsScan_ok_of_no_mismatch env keyMap res.answer found hany1
      obtain ⟨f3, hf3⟩ := ih f2 hokr hanyr
      refine ⟨f3, ?_⟩
      simp only [dsIPLoop, hq, if_neg hne, hf2]
      exact hf3

theorem dsIPLoop_skip (env : Env) (domain : String) (keyMap : KeyMap) :
    ∀ (ips : List String) (found : Bool),
      ips.all (dsPairOk env domain) = true →
      ips.all (dsPairSkipped env domain keyMap) = true →
      dsIPLoop env domain keyMap ips found = Except.ok found := by
  intro ips
  induction ips with
  | nil => intro found _ _; rfl
  | cons ip rest ih =>
    intro found hall hskip
    rw [List.all_cons, Bool.and_eq_true] at hall hskip
    obtain ⟨hok1, hokr⟩ := hall
    obtain ⟨hs1, hsr⟩ := hskip
    unfold dsPairOk at hok1
    unfold dsPairSkipped at hs1
    cases hq : query env domain 43 ip true
    · rw [hq] at hok1; simp at hok1
    case some res =>
      rw [hq] at hok1 hs1
      have hne : ¬ res.answer = [] := by simpa using hok1
      simp only [dsIPLoop, hq, if_neg hne, dsScan_skip_all env keyMap res.answer found hs1]
      exact ih found hokr hsr

theorem dsNSLoop_error_of_mismatch (env : Env) (domain : String) (keyMap : KeyMap) :
    ∀ (nss : List NSInfo) (found : Bool),
      nss.all (fun ns => ns.IP.all (dsPairOk env domain)) = true →
      nss.any (fun ns => ns.IP.any (dsPairMismatch env domain keyMap)) = true →
      dsNSLoop env domain keyMap nss found = Except.error (false, none) := by
  intro nss
  induction nss with
  | nil => intro found _ hany; simp at hany
  | cons ns rest ih =>
    intro found hall hany
    rw [List.all_cons, Bool.and_eq_true] at hall
    obtain ⟨hok1, hokr⟩ := hall
    rw [List.any_cons, Bool.or_eq_true] at hany
    by_cases hm1 : ns.IP.any (dsPairMismatch env domain keyMap) = true
    · simp only [dsNSLoop, dsIPLoop_error_of_mismatch env domain keyMap ns.IP found hok1 hm1]
    · have hmr : rest.any (fun ns => ns.IP.any (dsPairMismatch env domain keyMap)) = true := by
        rcases hany with h1 | h1
        · exact absurd h1 hm1
        · exact h1
      obtain ⟨f2, hf2⟩ :=
        dsIPLoop_ok_of_no_mismatch env domain keyMap ns.IP found hok1 (by simpa using hm1)
      simp only [dsNSLoop, hf2]
      exact ih f2 hokr hmr

theorem dsNSLoop_skip (env : Env) (domain : String) (keyMap : KeyMap) :
    ∀ (nss : List NSInfo) (found : Bool),
      nss.all (fun ns => ns.IP.all (dsPairOk env domain)) = true →
      nss.all (fun ns => ns.IP.all (dsPairSkipped env domain keyMap)) = true →
      dsNSLoop env domain keyMap nss found = Except.ok found := by
  intro nss
  induction nss with
  | nil => intro found _ _; rfl
  | cons ns rest ih =>
    intro found hall hskip
    rw [List.all_cons, Bool.and_eq_true] at hall hskip
    obtain ⟨hok1, hokr⟩ := hall
    obtain ⟨hs1, hsr⟩ := hskip
    simp only [dsNSLoop, dsIPLoop_skip env domain keyMap ns.IP found hok1 hs1]
    exact ih found hokr hsr

/-- A zone `child.test.` with one nameserver serving a self-validating
DNSKEY set (tag 7), whose parent `test.` serves one DS with tag 7, digest
type 2 and digest "BBBB", while the digest derived from the child key is
"AAAA" — a byte-for-byte digest mismatch. -/
def env1 : Env := {
  query := fun q qtype server _ =>
    if q = "child.test." ∧ qtype = 2 then
      some ⟨[⟨"child.test.", RRData.ns "ns1.child.test."⟩]⟩
    else if q = "ns1.child.test." ∧ qtype = 1 then
      some ⟨[⟨"ns1.child.test.", RRData.a "1.1.1.1"⟩]⟩
    else if q = "child.test." ∧ qtype = 48 ∧ server = "1.1.1.1" then
      some ⟨[⟨"child.test.", RRData.dnskey keyOne⟩, ⟨"child.test.", RRData.rrsig sigGood⟩]⟩
    else if q = "test." ∧ qtype = 2 then
      some ⟨[⟨"test.", RRData.ns "ns2.test."⟩]⟩
    else if q = "ns2.test." ∧ qtype = 1 then
      some ⟨[⟨"ns2.test.", RRData.a "2.2.2.2"⟩]⟩
    else if q = "child.test." ∧ qtype = 43 ∧ server = "2.2.2.2" then
      some ⟨[⟨"child.test.", RRData.ds ⟨7, 2, "BBBB"⟩⟩]⟩
    else none
  verify := fun _ _ _ => true
  toDS := fun key dt => some ⟨key.keyTagVal, dt, "AAAA"⟩
  now := 1760000000 }

/-- Claim C1 is refuted at a concrete zone with a parent DS whose digest
differs from the child's: `validateDomain` returns `false` with a NIL
error — the code has no `DigestMismatch` error value, the mismatch branch
is `return false, nil` — and `validateChain` turns that into the generic
`chainFailed` error. -/
theorem c1_counterexample :
    validateDomain env1 "child.test." = some (false, none) ∧
    validateChain env1 "child.test." = some (false, some Err.chainFailed) := by
  constructor
  · decide
  · rw [validateChain.eq_def]
    decide

/-- Claim C1 amended: whenever the DNSKEY phase completes and every parent
DS query succeeds with a non-empty answer, a digest mismatch (a DS that
matches a child DNSKEY by key tag, with a supported digest type, whose
derived child digest differs byte-for-byte) makes `validateDomain` return
`false` with a NIL error — no `DigestMismatch` error value is produced —
and `validateChain` then returns `false` with the generic `chainFailed`
error. -/
theorem c1_amended (env : Env) (domain : String) (keyMap : KeyMap)
    (hdk : dkNSLoop env domain (findNS env domain).1 [] = some (Except.ok keyMap))
    (hok : ((findNS env (getParentDomain domain)).1).all
      (fun ns => ns.IP.all (dsPairOk env domain)) = true)
    (hmm : ((findNS env (getParentDomain domain)).1).any
      (fun ns => ns.IP.any (dsPairMismatch env domain keyMap)) = true) :
    validateDomain env domain = some (false, none) ∧
    validateChain env domain = some (false, some Err.chainFailed) := by
  have hds : validateParentDS env domain keyMap = (false, none) := by
    rw [validateParentDS,
      dsNSLoop_error_of_mismatch env domain keyMap (findNS env (getParentDomain domain)).1 false hok hmm]
  have hvd : validateDomain env domain = some (false, none) := by
    rw [validateDomain, hdk]
    exact congrArg some hds
  refine ⟨hvd, ?_⟩
  rw [validateChain.eq_def, hvd]
  rfl

/-- Witness for the amended C1 at the concrete mismatching zone. -/
theorem c1_amended_witness :
    dkNSLoop env1 "child.test." (findNS env1 "child.test.").1 [] =
      some (Except.ok [(7, keyOne)]) ∧
    validateDomain env1 "child.test." = some (false, none) := by
  refine ⟨rfl, ?_⟩
  exact (c1_amended env1 "child.test." [(7, keyOne)] rfl (by decide) (by decide)).1

/-- Like `env1`, except that the parent's only DS record for the matching
key tag 7 declares digest type 3 (GOST). -/
def env5 : Env := {
  query := fun q qtype server _ =>
    if q = "child.test." ∧ qtype = 2 then
      some ⟨[⟨"child.test.", RRData.ns "ns1.child.test."⟩]⟩
    else if q = "ns1.child.test." ∧ qtype = 1 then
      some ⟨[⟨"ns1.child.test.", RRData.a "1.1.1.1"⟩]⟩
    else if q = "child.test." ∧ qtype = 48 ∧ server = "1.1.1.1" then
      some ⟨[⟨"child.test.", RRData.dnskey keyOne⟩, ⟨"child.test.", RRData.rrsig sigGood⟩]⟩
    else if q = "test." ∧ qtype = 2 then
      some ⟨[⟨"test.", RRData.ns "ns2.test."⟩]⟩
    else if q = "ns2.test." ∧ qtype = 1 then
      some ⟨[⟨"ns2.test.", RRData.a "2.2.2.2"⟩]⟩
    else if q = "child.test." ∧ qtype = 43 ∧ server = "2.2.2.2" then
      some ⟨[⟨"child.test.", RRData.ds ⟨7, 3, "BBBB"⟩⟩]⟩
    else none
  verify := fun _ _ _ => true
  toDS := fun key dt => some ⟨key.keyTagVal, dt, "AAAA"⟩
  now := 1760000000 }

/-- Claim C5: when the DNSKEY phase completes and every parent DS query
succeeds with a non-empty answer, while no DS record both matches a child
key tag and carries a non-GOST digest type (in particular when the only
tag-matching records declare digest type 3), the DS scan records neither a
match nor a mismatch and `validateDomain` fails with the
`noMatchingKeyTag` error — not with a digest-mismatch result. -/
theorem c5_gost_skipped (env : Env) (domain : String) (keyMap : KeyMap)
    (hdk : dkNSLoop env domain (findNS env domain).1 [] = some (Except.ok keyMap))
    (hok : ((findNS env (getParentDomain domain)).1).all
      (fun ns => ns.IP.all (dsPairOk env domain)) = true)
    (hskip : ((findNS env (getParentDomain domain)).1).all
      (fun ns => ns.IP.all (dsPairSkipped env domain keyMap)) = true) :
    validateDomain env domain =
      some (false, some (Err.noMatchingKeyTag domain (getParentDomain domain))) := by
  have hds : validateParentDS env domain keyMap =
      (false, some (Err.noMatchingKeyTag domain (getParentDomain domain))) := by
    rw [validateParentDS,
      dsNSLoop_skip env domain keyMap (findNS env (getParentDomain domain)).1 false hok hskip]
    rfl
  rw [validateDomain, hdk]
  exact congrArg some hds

/-- Witness for C5 at the concrete zone whose only tag-matching DS is
GOST. -/
theorem c5_witness :
    ((findNS env5 (getParentDomain "child.test.")).1).all
      (fun ns => ns.IP.all (dsPairSkipped env5 "child.test." [(7, keyOne)])) = true ∧
    validateDomain env5 "child.test." =
      some (false, some (Err.noMatchingKeyTag "child.test." (getParentDomain "child.test."))) := by
  refine ⟨by decide, ?_⟩
  exact c5_gost_skipped env5 "child.test." [(7, keyOne)] rfl (by decide) (by decide)

/-! Claim C3: key-map consistency across two simulated nameservers. -/

/-- A DNSKEY with a parametric key tag and public key. -/
def c3Key (tag : Nat) (pk : String) : DNSKEY := ⟨257, 3, 8, pk, tag⟩

/-- A zone `zone.test.` served by two simulated nameservers that answer the
DNSKEY query with keys bearing the same key tag but the given public keys.
The behaviour of every DS query is an arbitrary parameter `dsq`, so any
fact independent of `dsq` holds without the DS phase ever being entered. -/
def c3Env (tag : Nat) (pk1 pk2 : String) (dsq : String → String → Option Msg) : Env := {
  query := fun q qtype server _ =>
    if qtype = 43 then dsq q server
    else if q = "zone.test." ∧ qtype = 2 then
      some ⟨[⟨"zone.test.", RRData.ns "ns1.test."⟩, ⟨"zone.test.", RRData.ns "ns2.test."⟩]⟩
    else if q = "ns1.test." ∧ qtype = 1 then some ⟨[⟨"ns1.test.", RRData.a "1.1.1.1"⟩]⟩
    else if q = "ns2.test." ∧ qtype = 1 then some ⟨[⟨"ns2.test.", RRData.a "2.2.2.2"⟩]⟩
    else if qtype = 48 ∧ server = "1.1.1.1" then
      some ⟨[⟨"zone.test.", RRData.dnskey (c3Key tag pk1)⟩, ⟨"zone.test.", RRData.rrsig sigGood⟩]⟩
    else if qtype = 48 ∧ server = "2.2.2.2" then
      some ⟨[⟨"zone.test.", RRData.dnskey (c3Key tag pk2)⟩, ⟨"zone.test.", RRData.rrsig sigGood⟩]⟩
    else none
  verify := fun _ _ _ => true
  toDS := fun _ _ => none
  now := 1760000000 }

/-- Claim C3: when two authoritative servers of a zone return DNSKEYs with
the same key tag but different public-key bits, `validateDomain` fails with
the `inconsistentKeys` error; the result holds for every DS-query behaviour
`dsq`, so the DS phase (`validateParentDS`) is never entered. -/
theorem c3_inconsistent_keys (tag : Nat) (pk1 pk2 : String)
    (dsq : String → String → Option Msg) (hne : pk1 ≠ pk2) :
    validateDomain (c3Env tag pk1 pk2 dsq) "zone.test." = some (false, some Err.inconsistentKeys) := by
  have hns : findNS (c3Env tag pk1 pk2 dsq) "zone.test." =
      ([⟨"ns1.test.", ["1.1.1.1"]⟩, ⟨"ns2.test.", ["2.2.2.2"]⟩], none) := rfl
  have hlk2 : lookupKeysLoop
      [⟨"zone.test.", RRData.dnskey (c3Key tag pk2)⟩, ⟨"zone.test.", RRData.rrsig sigGood⟩]
      false [(tag, c3Key tag pk1)] = Except.error Err.inconsistentKeys := by
    simp [lookupKeysLoop, keyMapFind, c3Key, DNSKEY.KeyTag, Ne.symm hne]
  have h1 : dkNSLoop (c3Env tag pk1 pk2 dsq) "zone.test."
      [⟨"ns1.test.", ["1.1.1.1"]⟩, ⟨"ns2.test.", ["2.2.2.2"]⟩] [] =
      dkNSLoop (c3Env tag pk1 pk2 dsq) "zone.test."
        [⟨"ns2.test.", ["2.2.2.2"]⟩] [(tag, c3Key tag pk1)] := rfl
  have h2 : dkIPLoop (c3Env tag pk1 pk2 dsq) "zone.test." ["2.2.2.2"] [(tag, c3Key tag pk1)] =
      some (Except.error (false, some Err.inconsistentKeys)) := by
    have hq2 : query (c3Env tag pk1 pk2 dsq) "zone.test." 48 "2.2.2.2" true =
        some ⟨[⟨"zone.test.", RRData.dnskey (c3Key tag pk2)⟩, ⟨"zone.test.", RRData.rrsig sigGood⟩]⟩ := rfl
    simp only [dkIPLoop, LookupDNSKEY, hq2, hlk2]
  have h3 : dkNSLoop (c3Env tag pk1 pk2 dsq) "zone.test."
      [⟨"ns2.test.", ["2.2.2.2"]⟩] [(tag, c3Key tag pk1)] =
      some (Except.error (false, some Err.inconsistentKeys)) := by
    simp only [dkNSLoop, h2]
  simp only [validateDomain, hns, h1, h3]

/-- Witness for C3 at concrete differing public keys and a trivial DS
behaviour. -/
theorem c3_witness :
    validateDomain (c3Env 7 "PKONE" "PKTWO" (fun _ _ => none)) "zone.test." =
      some (false, some Err.inconsistentKeys) :=
  c3_inconsistent_keys 7 "PKONE" "PKTWO" (fun _ _ => none) (by decide)

end Dt
